import Mathlib

/-
Verification of the stream registry and typed token reader implemented in
mathics/builtin/files.py (the `Read`, `Close`, `StringToStream`, `Streams`
builtins and the `_put_stream` registry helper).

The Python module keeps three module-level globals:
  STREAMS   : dict from integer handle to the host stream object,
  _STREAMS  : dict from integer handle to the Mathics expression
              InputStream[name, n] / OutputStream[name, n],
  NSTREAMS  : the highest handle number allocated so far.
`_put_stream` increments NSTREAMS and stores the stream under the new id;
`Close` calls stream.close() on the host object (setting its `closed` flag)
but removes nothing from either dict; `Streams[]` lists _STREAMS.values().

Streams opened by StringToStream wrap an in-memory character buffer; we
model a host stream as the list of characters not yet consumed plus the
`closed` flag that stream.close() sets.  Reading from a closed host stream
raises ValueError; indexing a dict with an absent key raises KeyError;
both are modelled as named host errors, as is the NameError raised by
Read when it builds the `readf` message from the out-of-scope variable
`typ` (a Python 2 generator expression does not leak its loop variable).
-/

namespace Mathics

/-- A host-level stream object: the characters not yet consumed, and the
`closed` flag set by stream.close(). -/
structure PyStream where
  rem : List Char
  closed : Bool
deriving DecidableEq

/-- The Mathics expression InputStream[name, n] stored in `_STREAMS`. -/
structure StreamExpr where
  name : String
  id : Nat
deriving DecidableEq

/-- The module-level registry state: NSTREAMS, STREAMS (host streams) and
`_STREAMS` (Mathics stream expressions, called MSTREAMS here since Lean
names cannot start with an underscore).  Both dicts are modelled as
association lists in insertion order. -/
structure RegistryState where
  NSTREAMS : Nat
  STREAMS : List (Nat × PyStream)
  MSTREAMS : List (Nat × StreamExpr)
deriving DecidableEq

/-- The registry before any stream has been opened. -/
def initState : RegistryState := ⟨0, [], []⟩

/-- `STREAMS.get(n)`: dictionary lookup returning None when absent. -/
def lookupStream (st : RegistryState) (n : Nat) : Option PyStream :=
  match st.STREAMS.find? (fun p => p.1 == n) with
  | some p => some p.2
  | none => none

/-- Write back the mutated read position of the host stream stored under
key `n` (Python mutates the stream object in place). -/
def updateStream (st : RegistryState) (n : Nat) (rem : List Char) : RegistryState :=
  { st with STREAMS :=
      st.STREAMS.map (fun p => if p.1 = n then (p.1, { p.2 with rem := rem }) else p) }

/-- `_put_stream(stream)`: increments NSTREAMS, stores the stream under the
new id and returns the id. -/
def put_stream (st : RegistryState) (s : PyStream) : RegistryState × Nat :=
  let n := st.NSTREAMS + 1
  ({ st with NSTREAMS := n, STREAMS := st.STREAMS ++ [(n, s)] }, n)

/-- `StringToStream.apply`: wraps the string in an in-memory stream,
registers it via `_put_stream`, and records InputStream[String, n] in
`_STREAMS`.  Returns the new state and the allocated id. -/
def StringToStream_apply (st : RegistryState) (s : String) : RegistryState × Nat :=
  let (st2, n) := put_stream st ⟨s.data, false⟩
  ({ st2 with MSTREAMS := st2.MSTREAMS ++ [(n, ⟨"String", n⟩)] }, n)

/-- Outcome of `Close.apply_input`: the Null return value, the
General::openx message (already-closed stream), or the uncaught host
KeyError raised by `STREAMS[n]` when the key is absent. -/
inductive CloseOutcome where
  | null
  | messageOpenx
  | hostKeyError
deriving DecidableEq

/-- `Close.apply_input`: looks up STREAMS[n] (KeyError when absent); if the
stream is already closed, issues the openx message; otherwise calls
stream.close().  The registry dicts themselves are never shrunk. -/
def Close_apply_input (st : RegistryState) (n : Nat) : CloseOutcome × RegistryState :=
  match lookupStream st n with
  | none => (.hostKeyError, st)
  | some s =>
    if s.closed then (.messageOpenx, st)
    else (.null,
      { st with STREAMS :=
          st.STREAMS.map (fun p => if p.1 = n then (p.1, { p.2 with closed := true }) else p) })

/-- `Streams.apply`: returns List[*_STREAMS.values()]. -/
def Streams_apply (st : RegistryState) : List StreamExpr :=
  st.MSTREAMS.map (fun p => p.2)

/-- A Python value appended to Read's `result` list: ord(c) for Byte,
a string for the other token types. -/
inductive Tok where
  | int (n : Nat)
  | str (s : String)
deriving DecidableEq

/-- The value Read returns on success: from_python of a single result
element (bare token) or of the whole result list. -/
inductive PyVal where
  | tok (t : Tok)
  | list (l : List Tok)
deriving DecidableEq

/-- The word separators hardcoded inside `word_reader`
(it rebinds its argument to [' ', '\t', '\n']). -/
def isSep (c : Char) : Bool :=
  c = ' ' || c = '\t' || c = '\n'

/-- One `next()` call on the suspended `word_reader` generator: either a
yielded word or the EOFError it raises at end of stream with no pending
word.  The second argument is the generator's `word` variable, which the
source never resets after a yield: resuming after either yield continues
the inner loop with `word` still bound to the yielded text. -/
inductive GenOut where
  | yielded (w : String)
  | eofError
deriving DecidableEq

/-- The body of `word_reader`, resumed with the current `word` binding.
At end of stream it raises EOFError only if `word` is empty, otherwise it
yields `word` (and, on resumption, yields it again forever, since the
fall-through separator test on tmp = two quotes is a no-op).  A separator
with empty `word` breaks to the outer loop, modelled as recursing with an
empty word; a separator with a pending word yields it; any other character
is appended to `word`. -/
def genStep : List Char → String → GenOut × List Char
  | [], word => if word = "" then (.eofError, []) else (.yielded word, [])
  | c :: rest, word =>
    if isSep c then
      if word = "" then genStep rest ""
      else (.yielded word, rest)
    else genStep rest (word.push c)

/-- `stream.readline()` on an io.StringIO buffer (newline = LF): the
consumed prefix, through and including the first LF when there is one, and
the characters left after it. -/
def readline : List Char → List Char × List Char
  | [] => ([], [])
  | c :: rest =>
    if c = '\n' then ([c], rest)
    else
      let p := readline rest
      (c :: p.1, p.2)

/-- The recognized token-type names (READ_TYPES in Read.apply). -/
def READ_TYPES : List String :=
  ["Byte", "Character", "Expression", "Number", "Real", "Record", "String", "Word"]

/-- Result of the reading loop of `Read.apply`: the accumulated result
list, the EOFError caught and turned into EndOfFile, or an uncaught host
error (ValueError when a read hits a closed stream).  All carry the
position the stream has been advanced to. -/
inductive LoopOut where
  | ok (result : List Tok) (rem : List Char)
  | eof (rem : List Char)
  | err (e : String) (rem : List Char)
deriving DecidableEq

/-- The `for typ in types` loop of `Read.apply`, threading the stream
position, the suspended generator's `word` binding (one generator is
created per Read call and shared by all Word requests in it) and the
accumulated result.  Byte and String raise EOFError on an empty read;
Character appends whatever read(1) returned, including the empty string at
end of stream; Expression/Number/Real/Record are unimplemented `pass`
branches; reads on a closed host stream raise ValueError. -/
def readLoop (closed : Bool) : List String → List Char → String → List Tok → LoopOut
  | [], rem, _, acc => .ok acc rem
  | typ :: rest, rem, gw, acc =>
    if typ = "Byte" then
      if closed then .err "ValueError" rem
      else match rem with
        | [] => .eof []
        | c :: r => readLoop closed rest r gw (acc ++ [.int c.toNat])
    else if typ = "Character" then
      if closed then .err "ValueError" rem
      else match rem with
        | [] => readLoop closed rest [] gw (acc ++ [.str ""])
        | c :: r => readLoop closed rest r gw (acc ++ [.str c.toString])
    else if typ = "String" then
      if closed then .err "ValueError" rem
      else
        let p := readline rem
        if p.1 = [] then .eof rem
        else readLoop closed rest p.2 gw (acc ++ [.str ⟨p.1⟩])
    else if typ = "Word" then
      if closed then .err "ValueError" rem
      else match genStep rem gw with
        | (.yielded w, r) => readLoop closed rest r w (acc ++ [.str w])
        | (.eofError, r) => .eof r
    else
      readLoop closed rest rem gw acc

/-- Outcome of `Read.apply`: a returned value (EndOfFile is the value
from_python of the string EndOfFile), the Read::openx message issued when
STREAMS.get returns None, or an uncaught host error. -/
inductive ReadOutcome where
  | value (v : PyVal)
  | messageOpenx
  | hostError (e : String)
deriving DecidableEq

/-- The second argument of Read: a bare token type or a list of them;
Read.apply wraps a non-list into a one-element list. -/
inductive TypesArg where
  | single (t : String)
  | listArg (ts : List String)

/-- `types = types.to_python(); if not isinstance(types, list): types = [types]`. -/
def normalizeTypes : TypesArg → List String
  | .single t => [t]
  | .listArg ts => ts

/-- `Read.apply` on InputStream[name, n]: STREAMS.get(n) (openx message on
None — note a closed stream is still present in the dict), up-front
validation of every requested type name (on failure the source evaluates
from_python(typ) with `typ` unbound, raising NameError before any message
is delivered and before any byte is read), then the reading loop, then the
unwrap: a single-element result list is returned bare, anything else as a
list. -/
def Read_apply (st : RegistryState) (n : Nat) (ta : TypesArg) : ReadOutcome × RegistryState :=
  match lookupStream st n with
  | none => (.messageOpenx, st)
  | some s =>
    let types := normalizeTypes ta
    if types.all (fun t => READ_TYPES.contains t) then
      match readLoop s.closed types s.rem "" [] with
      | .eof rem => (.value (.tok (.str "EndOfFile")), updateStream st n rem)
      | .err e rem => (.hostError e, updateStream st n rem)
      | .ok acc rem =>
        match acc with
        | [v] => (.value (.tok v), updateStream st n rem)
        | _ => (.value (.list acc), updateStream st n rem)
    else
      (.hostError "NameError", st)

/-- One registry operation performed by the evaluator: opening an
in-memory stream (via `_put_stream`) or closing a handle. -/
inductive Op where
  | openStr (s : String)
  | close (n : Nat)

/-- The handle ids returned by the successive open operations of a trace,
in order, with closes interleaved as requested. -/
def traceIds : RegistryState → List Op → List Nat
  | _, [] => []
  | st, .openStr s :: ops =>
    (StringToStream_apply st s).2 :: traceIds (StringToStream_apply st s).1 ops
  | st, .close n :: ops => traceIds (Close_apply_input st n).2 ops

theorem open_snd_eq (st : RegistryState) (s : String) :
    (StringToStream_apply st s).2 = st.NSTREAMS + 1 := rfl

theorem open_fst_NSTREAMS (st : RegistryState) (s : String) :
    ((StringToStream_apply st s).1).NSTREAMS = st.NSTREAMS + 1 := rfl

theorem close_NSTREAMS (st : RegistryState) (n : Nat) :
    ((Close_apply_input st n).2).NSTREAMS = st.NSTREAMS := by
  unfold Close_apply_input
  cases lookupStream st n with
  | none => rfl
  | some s =>
    dsimp only
    split <;> rfl

theorem traceIds_lt (ops : List Op) :
    ∀ st : RegistryState, ∀ i ∈ traceIds st ops, st.NSTREAMS < i := by
  induction ops with
  | nil =>
    intro st i hi
    simp [traceIds] at hi
  | cons op ops ih =>
    intro st i hi
    cases op with
    | openStr s =>
      simp only [traceIds, List.mem_cons] at hi
      rcases hi with h | h
      · rw [h, open_snd_eq]; omega
      · have := ih _ i h
        rw [open_fst_NSTREAMS] at this
        omega
    | close n =>
      simp only [traceIds] at hi
      have := ih _ i hi
      rw [close_NSTREAMS] at this
      omega

theorem traceIds_pairwise (ops : List Op) :
    ∀ st : RegistryState, List.Pairwise (· < ·) (traceIds st ops) := by
  induction ops with
  | nil => intro st; simp [traceIds]
  | cons op ops ih =>
    intro st
    cases op with
    | openStr s =>
      simp only [traceIds]
      refine List.Pairwise.cons ?_ (ih _)
      intro i hi
      have := traceIds_lt ops _ i hi
      rw [open_fst_NSTREAMS] at this
      rw [open_snd_eq]
      omega
    | close n =>
      simp only [traceIds]
      exact ih _

/-- Claim C1: stream handle ids are allocated starting at 1 and are
strictly increasing across the process lifetime: for every sequence of
open and close operations, the ids issued are pairwise strictly increasing
in order of issue (so each open returns an id greater than every id issued
before, and no id is ever reused, even after its stream is closed), every
issued id is at least 1, and in particular opening three streams, closing
the second and opening a fourth yields the ids 1, 2, 3, 4. -/
theorem C1_handle_ids_strictly_increasing (ops : List Op) :
    List.Pairwise (· < ·) (traceIds initState ops) ∧
    (∀ i ∈ traceIds initState ops, 1 ≤ i) ∧
    traceIds initState
      [.openStr "a", .openStr "b", .openStr "c", .close 2, .openStr "d"] =
        [1, 2, 3, 4] := by
  refine ⟨traceIds_pairwise ops initState, ?_, by decide⟩
  intro i hi
  have := traceIds_lt ops initState i hi
  simpa [initState] using this

theorem find_update (l : List (Nat × PyStream)) (n : Nat) (rem : List Char) :
    (l.map (fun p => if p.1 = n then (p.1, { p.2 with rem := rem }) else p)).find?
        (fun p => p.1 == n) =
      (l.find? (fun p => p.1 == n)).map (fun p => (p.1, { p.2 with rem := rem })) := by
  induction l with
  | nil => rfl
  | cons q t ih =>
    by_cases h : q.1 = n
    · have hb : (q.1 == n) = true := by simp [h]
      simp [List.find?, h, hb]
    · have hb : (q.1 == n) = false := by simp [h]
      simp [List.find?, h, hb, ih]

theorem lookup_update (st : RegistryState) (n : Nat) (rem : List Char) :
    lookupStream (updateStream st n rem) n =
      (lookupStream st n).map (fun s => { s with rem := rem }) := by
  unfold lookupStream updateStream
  rw [find_update]
  cases st.STREAMS.find? (fun p => p.1 == n) <;> rfl

/-- Evaluating one Read of the Word type against a registered open stream
whose buffer is exhausted: the fresh generator raises EOFError at once,
which Read turns into the EndOfFile value; the stream position stays at
end of stream. -/
theorem read_word_exhausted (st : RegistryState) (n : Nat) (s : PyStream)
    (hs : lookupStream st n = some s) (hc : s.closed = false) (hr : s.rem = []) :
    Read_apply st n (.single "Word") =
      (.value (.tok (.str "EndOfFile")), updateStream st n []) := by
  have hseq : s = ⟨[], false⟩ := by
    cases s
    simp_all
  subst hseq
  unfold Read_apply
  rw [hs]
  rfl

/-- Claim C6: end-of-stream is idempotent and deterministic across
separate read calls: reading Word from an exhausted registered stream
yields EndOfFile immediately, and reading Word again on the resulting
state yields EndOfFile again rather than erroring. -/
theorem C6_end_of_stream_idempotent (st : RegistryState) (n : Nat) (s : PyStream)
    (hs : lookupStream st n = some s) (hc : s.closed = false) (hr : s.rem = []) :
    (Read_apply st n (.single "Word")).1 = .value (.tok (.str "EndOfFile")) ∧
    (Read_apply (Read_apply st n (.single "Word")).2 n (.single "Word")).1 =
      .value (.tok (.str "EndOfFile")) := by
  have h1 := read_word_exhausted st n s hs hc hr
  refine ⟨by rw [h1], ?_⟩
  rw [h1]
  have h2 : lookupStream (updateStream st n []) n = some { s with rem := [] } := by
    rw [lookup_update, hs]
    rfl
  have h3 := read_word_exhausted (updateStream st n []) n { s with rem := [] } h2 hc rfl
  rw [h3]

/-- Witness for claim C6 at a concrete input: a stream opened on the empty
string is already exhausted, and two successive Word reads both return
EndOfFile. -/
theorem C6_end_of_stream_witness :
    (Read_apply ((StringToStream_apply initState "").1) 1 (.single "Word")).1 =
      .value (.tok (.str "EndOfFile")) ∧
    (Read_apply (Read_apply ((StringToStream_apply initState "").1) 1 (.single "Word")).2 1
        (.single "Word")).1 = .value (.tok (.str "EndOfFile")) :=
  C6_end_of_stream_idempotent ((StringToStream_apply initState "").1) 1 ⟨[], false⟩
    (by decide) rfl rfl

/-- `readline` consumes exactly the characters up to the first LF, plus
the LF itself when there is one, and leaves the rest. -/
theorem readline_eq (cs : List Char) :
    readline cs =
      (cs.takeWhile (fun c => c != '\n') ++ (if '\n' ∈ cs then ['\n'] else []),
       (cs.dropWhile (fun c => c != '\n')).tail) := by
  induction cs with
  | nil => rfl
  | cons c rest ih =>
    by_cases h : c = '\n'
    · subst h
      simp [readline, List.takeWhile_cons, List.dropWhile_cons]
    · have hb : (c != '\n') = true := by simp [h]
      have hror : ('\n' = c ∨ '\n' ∈ rest) ↔ '\n' ∈ rest :=
        or_iff_right (fun hx => h hx.symm)
      simp [readline, List.takeWhile_cons, List.dropWhile_cons, hb, ih, h, hror]

/-- Claim C4 is false on the code: reading the String token from a stream
holding the characters a, b, LF, c, d returns the text a, b, LF — the
trailing line terminator is part of the returned text (stream.readline()
keeps it), not excluded from it. -/
theorem C4_counterexample :
    (Read_apply ((StringToStream_apply initState "ab\ncd").1) 1 (.single "String")).1 =
      .value (.tok (.str "ab\n")) ∧
    "ab\n".data.getLast? = some '\n' := by decide

/-- Claim C4 (amended): reading a Line (the String token type) consumes
through the next line terminator or end-of-stream, and the returned text
INCLUDES the trailing terminator when one is present, for every stream
position where at least one byte is available before the terminator. -/
theorem C4_line_read_amended (cs : List Char)
    (h : cs.takeWhile (fun c => c != '\n') ≠ []) :
    (Read_apply ((StringToStream_apply initState ⟨cs⟩).1) 1 (.single "String")).1 =
      .value (.tok (.str ⟨cs.takeWhile (fun c => c != '\n') ++
        (if '\n' ∈ cs then ['\n'] else [])⟩)) ∧
    lookupStream
        (Read_apply ((StringToStream_apply initState ⟨cs⟩).1) 1 (.single "String")).2 1 =
      some ⟨(cs.dropWhile (fun c => c != '\n')).tail, false⟩ := by
  have hlook : lookupStream ((StringToStream_apply initState ⟨cs⟩).1) 1 =
      some ⟨cs, false⟩ := rfl
  have hne : (cs.takeWhile (fun c => c != '\n') ++
      (if '\n' ∈ cs then ['\n'] else [])) ≠ [] := by
    intro hcontra
    rcases List.append_eq_nil.mp hcontra with ⟨h1, _⟩
    exact h h1
  have hloop : readLoop false ["String"] cs "" [] =
      .ok [.str ⟨cs.takeWhile (fun c => c != '\n') ++
          (if '\n' ∈ cs then ['\n'] else [])⟩]
        ((cs.dropWhile (fun c => c != '\n')).tail) := by
    simp only [readLoop, readline_eq]
    norm_num [hne]
    rfl
  have hread : Read_apply ((StringToStream_apply initState ⟨cs⟩).1) 1 (.single "String") =
      (.value (.tok (.str ⟨cs.takeWhile (fun c => c != '\n') ++
          (if '\n' ∈ cs then ['\n'] else [])⟩)),
        updateStream ((StringToStream_apply initState ⟨cs⟩).1) 1
          ((cs.dropWhile (fun c => c != '\n')).tail)) := by
    unfold Read_apply
    rw [hlook]
    dsimp only [normalizeTypes]
    rw [hloop]
    rfl
  refine ⟨by rw [hread], ?_⟩
  rw [hread]
  dsimp only
  rw [lookup_update, hlook]
  rfl

/-- Witness for the amended claim C4 at a concrete input: the stream
a, b, LF, c, d has two bytes before the terminator, the String read
returns a, b, LF (terminator included) and leaves c, d in the stream. -/
theorem C4_line_read_witness :
    (Read_apply ((StringToStream_apply initState ⟨"ab\ncd".data⟩).1) 1
        (.single "String")).1 =
      .value (.tok (.str ⟨"ab\ncd".data.takeWhile (fun c => c != '\n') ++
        (if '\n' ∈ "ab\ncd".data then ['\n'] else [])⟩)) ∧
    lookupStream
        (Read_apply ((StringToStream_apply initState ⟨"ab\ncd".data⟩).1) 1
          (.single "String")).2 1 =
      some ⟨("ab\ncd".data.dropWhile (fun c => c != '\n')).tail, false⟩ :=
  C4_line_read_amended "ab\ncd".data (by decide)

/-- Claim C10: when every requested token type succeeds, the shape of
Read's result depends on the number of tokens produced: a result list of
exactly one token is returned bare, two or more tokens are returned as a
list in request order, and Read with the one-element list of a type is the
same call as Read with the bare type (both are normalized to the same
request list). -/
theorem C10_result_shape (st : RegistryState) (n : Nat) (ta : TypesArg) (s : PyStream)
    (acc : List Tok) (rem : List Char)
    (hs : lookupStream st n = some s)
    (hv : ((normalizeTypes ta).all fun t => READ_TYPES.contains t) = true)
    (hl : readLoop s.closed (normalizeTypes ta) s.rem "" [] = .ok acc rem) :
    (∀ v : Tok, acc = [v] → (Read_apply st n ta).1 = .value (.tok v)) ∧
    (2 ≤ acc.length → (Read_apply st n ta).1 = .value (.list acc)) ∧
    (∀ t : String, Read_apply st n (.single t) = Read_apply st n (.listArg [t])) := by
  refine ⟨?_, ?_, fun t => rfl⟩
  · intro v hv2
    subst hv2
    unfold Read_apply
    rw [hs]
    dsimp only
    rw [hv, if_pos rfl, hl]
  · intro hlen
    unfold Read_apply
    rw [hs]
    dsimp only
    rw [hv, if_pos rfl, hl]
    rcases acc with _ | ⟨a, _ | ⟨b, t⟩⟩
    · simp at hlen
    · simp at hlen
    · rfl

/-- Witness for claim C10 at a concrete input: reading two Word tokens in
one request from a stream on the text abc space 123 produces two tokens
and returns them as a list, while a one-element request list produces one
token and returns it bare. -/
theorem C10_result_shape_witness :
    (Read_apply ((StringToStream_apply initState "abc 123").1) 1
        (.listArg ["Word", "Word"])).1 =
      .value (.list [.str "abc", .str "abc123"]) ∧
    (Read_apply ((StringToStream_apply initState "abc 123").1) 1
        (.listArg ["Word"])).1 = .value (.tok (.str "abc")) :=
  ⟨(C10_result_shape ((StringToStream_apply initState "abc 123").1) 1
      (.listArg ["Word", "Word"]) ⟨"abc 123".data, false⟩
      [.str "abc", .str "abc123"] [] (by decide) (by decide) (by decide)).2.1
      (by decide),
    (C10_result_shape ((StringToStream_apply initState "abc 123").1) 1
      (.listArg ["Word"]) ⟨"abc 123".data, false⟩
      [.str "abc"] "123".data (by decide) (by decide) (by decide)).1
      (.str "abc") rfl⟩

/-- Claim C2 is false on the code, which is the bug: Read with the request
list Word, Word, Word on a stream holding exactly abc space 123 does not
return EndOfFile; the word generator never resets its word variable after
a yield, so the call returns the list abc, abc123, abc123 (the second and
third entries are the stale word with the remaining characters appended,
yielded again at end of stream) and the EOFError short-circuit is never
reached. -/
theorem C2_multiword_read_eval :
    (Read_apply ((StringToStream_apply initState "abc 123").1) 1
        (.listArg ["Word", "Word", "Word"])).1 =
      .value (.list [.str "abc", .str "abc123", .str "abc123"]) ∧
    (Read_apply ((StringToStream_apply initState "abc 123").1) 1
        (.listArg ["Word", "Word", "Word"])).1 ≠
      .value (.tok (.str "EndOfFile")) := by decide

/-- Claim C3 is false on the code, which is the bug: Close never removes
the registry entry, so a Read after a successful Close still finds the
stale closed stream (STREAMS.get does not return None) and the host read
raises ValueError; the not-open message is not issued. -/
theorem C3_read_after_close_eval :
    (Close_apply_input ((StringToStream_apply initState "abc").1) 1).1 = .null ∧
    (Read_apply (Close_apply_input ((StringToStream_apply initState "abc").1) 1).2 1
        (.single "Word")).1 = .hostError "ValueError" ∧
    (Read_apply (Close_apply_input ((StringToStream_apply initState "abc").1) 1).2 1
        (.single "Word")).1 ≠ .messageOpenx := by decide

/-- Claim C5 is false on the code, which is the bug: the Character branch
has no end-of-stream check, so reading a Character from an exhausted
stream returns the empty string that read(1) produced, not EndOfFile. -/
theorem C5_character_eof_eval :
    (Read_apply ((StringToStream_apply initState "").1) 1 (.single "Character")).1 =
      .value (.tok (.str "")) ∧
    (Read_apply ((StringToStream_apply initState "").1) 1 (.single "Character")).1 ≠
      .value (.tok (.str "EndOfFile")) := by decide

/-- Claim C7 is false on the code for never-opened handles, which is the
bug: Close indexes STREAMS directly, so a handle that was never issued
raises an uncaught host KeyError instead of the not-open message (the
already-closed half of the claim does hold: it yields the openx message
and leaves the state unchanged). -/
theorem C7_close_unknown_eval :
    (Close_apply_input initState 1).1 = .hostKeyError ∧
    (Close_apply_input initState 1).1 ≠ .messageOpenx ∧
    (Close_apply_input initState 1).2 = initState ∧
    (Close_apply_input (Close_apply_input ((StringToStream_apply initState "abc").1) 1).2
        1).1 = .messageOpenx ∧
    (Close_apply_input (Close_apply_input ((StringToStream_apply initState "abc").1) 1).2
        1).2 = (Close_apply_input ((StringToStream_apply initState "abc").1) 1).2 := by
  decide

/-- Claim C8 is false on the code, which is the bug: Close removes nothing
from the Mathics-side dict, so Streams still lists the InputStream
expression of a stream that has been closed, contradicting both the claim
and the builtin docstring (a list of all OPEN streams). -/
theorem C8_streams_lists_closed_eval :
    (Close_apply_input ((StringToStream_apply initState "abc").1) 1).1 = .null ∧
    lookupStream (Close_apply_input ((StringToStream_apply initState "abc").1) 1).2 1 =
      some ⟨"abc".data, true⟩ ∧
    Streams_apply (Close_apply_input ((StringToStream_apply initState "abc").1) 1).2 =
      [⟨"String", 1⟩] := by decide

/-- Claim C9 holds on the code up to the reporting step, where the code is
the bug: the whole request list is validated up front and no byte is
consumed (the state is returned untouched even though a valid Word request
precedes the bad name), but the malformed-request message is never
delivered — building its argument evaluates the out-of-scope variable typ
and raises NameError. -/
theorem C9_invalid_type_eval :
    Read_apply ((StringToStream_apply initState "abc 123").1) 1
        (.listArg ["Word", "Foo"]) =
      (.hostError "NameError", (StringToStream_apply initState "abc 123").1) := by
  decide

end Mathics
